import Mathlib

/-!
Shallow embedding of the extraction engine of `extractor.py` from the
Local_Lobbyist_Public_Search repository, together with theorems settling the
frozen claims about its specification.

Modelling conventions:
* Python strings are modelled as `List Char` (`Str`); `None`-able strings as
  `Option Str`.
* Python floats are modelled exactly: finite values as rationals (the claims
  only involve values that are exactly representable), plus the `inf`/`nan`
  results that `float(...)` can produce.  Binary rounding and overflow are not
  modelled; no claim depends on them.
* The markup tree that BeautifulSoup walks is modelled as a list of nodes in
  document order (`Soup`); `find_previous` walks this order backwards and
  `find_next_sibling` walks forward within the same parent (`group`).  The
  cells of a table are held inside its table node.
* Exceptions are modelled with `Except`/`Option`; library parsers
  (`pandas.to_datetime` without an explicit format) are modelled on the date
  shapes the scraped documents use, with a comment at the definition.
-/

namespace LobbyExtract

/-- Python strings are modelled as lists of characters. -/
abbrev Str := List Char

/-! ## Basic string operations -/

/-- `pat in s` for Python strings: `pat` occurs as a contiguous substring. -/
def containsSub (pat : Str) : Str → Bool
  | [] => pat.isPrefixOf []
  | c :: rest => pat.isPrefixOf (c :: rest) || containsSub pat rest

/-- Remove leading whitespace (the left half of Python `str.strip()`). -/
def trimStart (s : Str) : Str := s.dropWhile Char.isWhitespace

/-- Python `str.strip()`: remove leading and trailing whitespace. -/
def strip (s : Str) : Str := ((trimStart s).reverse.dropWhile Char.isWhitespace).reverse

/-- Python `str.split(sep)` for a one-character separator: split on every
occurrence, keeping empty parts (`"".split('-') == ['']`). -/
def splitOnChar (c : Char) (s : Str) : List Str :=
  s.foldr
    (fun x acc =>
      match acc with
      | [] => [[x]]
      | hd :: tl => if x = c then [] :: hd :: tl else (x :: hd) :: tl)
    [[]]

/-- Numeric value of a list of decimal digits. -/
def natOfDigits (s : Str) : Nat := s.foldl (fun a c => 10 * a + (c.toNat - 48)) 0

/-- Left-pad a digit string with zeros to width `k`. -/
def padZeros (k : Nat) (s : Str) : Str := List.replicate (k - s.length) '0' ++ s

/-! ## Python float model

`float(text)` in CPython accepts an optional sign, then either a decimal
literal (`digitpart [. [digitpart]] [exp]` or `. digitpart [exp]`, where a
`digitpart` is digits with single underscores between digits) or the special
words `inf`/`infinity`/`nan` (case-insensitive).  Finite values are modelled
exactly as rationals. -/

/-- An exact decimal value `m * 10 ^ e`, kept canonical: `10` does not divide
`m`, and `0` is stored as `⟨0, 0⟩`.  Every value `float(...)` produces from a
decimal literal is of this shape, and canonicity makes equality of values
structural (hence kernel-decidable; `ℚ` arithmetic is not). -/
structure DecVal where
  m : Int
  e : Int
deriving DecidableEq, Repr

/-- Strip factors of ten from the mantissa; `fuel` bounds the iteration. -/
def canonDec : Nat → Int → Int → DecVal
  | 0, m, e => ⟨m, e⟩
  | fuel + 1, m, e =>
    if m = 0 then ⟨0, 0⟩
    else if m % 10 = 0 then canonDec fuel (m / 10) (e + 1) else ⟨m, e⟩

def DecVal.make (m : Int) (e : Int) : DecVal := canonDec m.natAbs m e

/-- Negation preserves canonicity. -/
def DecVal.negVal (v : DecVal) : DecVal := ⟨-v.m, v.e⟩

/-- The rational value a `DecVal` denotes. -/
def DecVal.toRat (v : DecVal) : ℚ := (v.m : ℚ) * 10 ^ v.e

lemma canonDec_toRat (fuel : Nat) (m e : Int) :
    (canonDec fuel m e).toRat = (m : ℚ) * 10 ^ e := by
  induction fuel generalizing m e with
  | zero => rfl
  | succ n ih =>
    unfold canonDec
    by_cases h0 : m = 0
    · simp [h0, DecVal.toRat]
    · rw [if_neg h0]
      by_cases h10 : m % 10 = 0
      · rw [if_pos h10, ih]
        have hm : m = 10 * (m / 10) := by
          have := Int.ediv_add_emod m 10
          omega
        have hq : ((m : ℚ)) = ((m / 10 : ℤ) : ℚ) * 10 := by
          rw [show ((m : ℚ)) = ((10 * (m / 10) : ℤ) : ℚ) by rw [← hm]]
          push_cast
          ring
        rw [zpow_add₀ (by norm_num : (10 : ℚ) ≠ 0) e 1, zpow_one, hq]
        ring
      · rw [if_neg h10]
        rfl

/-- `DecVal.make` denotes exactly `m * 10 ^ e`. -/
lemma make_toRat (m e : Int) : (DecVal.make m e).toRat = (m : ℚ) * 10 ^ e :=
  canonDec_toRat m.natAbs m e

inductive PyFloat where
  | fin (v : DecVal)
  | inf
  | ninf
  | nan
deriving DecidableEq, Repr

/-- The float value `0.0`. -/
def PyFloat.zero : PyFloat := .fin ⟨0, 0⟩

/-- Value of an ASCII digit. -/
def digitVal (c : Char) : Nat := c.toNat - 48

/-- Consume a Python `digitpart` (digits with single underscores between
digits), accumulating value `v` over `n` digits; returns the value, the digit
count and the unconsumed remainder. -/
def digitsAux (v : Nat) (n : Nat) : Str → Nat × Nat × Str
  | [] => (v, n, [])
  | [c] => if c.isDigit then (10 * v + digitVal c, n + 1, []) else (v, n, [c])
  | c :: d :: rest =>
    if c.isDigit then digitsAux (10 * v + digitVal c) (n + 1) (d :: rest)
    else if c == '_' then
      if d.isDigit then digitsAux (10 * v + digitVal d) (n + 1) rest
      else (v, n, c :: d :: rest)
    else (v, n, c :: d :: rest)

/-- A `digitpart` must start with a digit (`float("_1")` fails). -/
def parseDigits (s : Str) : Option (Nat × Nat × Str) :=
  match s with
  | c :: _ => if c.isDigit then some (digitsAux 0 0 s) else none
  | [] => none

/-- Optional sign; `true` means negative. -/
def parseSign (s : Str) : Bool × Str :=
  match s with
  | '+' :: r => (false, r)
  | '-' :: r => (true, r)
  | _ => (false, s)

/-- Optional exponent suffix (`e`/`E`, sign, digits) applied to an
already-parsed mantissa `m × 10^e`. -/
def parseExp (m e : Int) (s : Str) : Option DecVal :=
  match s with
  | [] => some (DecVal.make m e)
  | c :: r =>
    if c == 'e' || c == 'E' then
      match parseSign r with
      | (eneg, r1) =>
        match parseDigits r1 with
        | some (ev, _, rest) =>
          if rest = [] then
            some (if eneg then DecVal.make m (e - ev) else DecVal.make m (e + ev))
          else none
        | none => none
    else none

/-- The numeric alternatives of the float grammar (after the sign); the value
`iv.fv × 10^exp` is the exact decimal `(iv·10^fn + fv) × 10^(exp-fn)`. -/
def parseNumeric (s : Str) : Option DecVal :=
  match parseDigits s with
  | some (iv, _, rest) =>
    match rest with
    | '.' :: r2 =>
      match parseDigits r2 with
      | some (fv, fn, r3) => parseExp ((iv * 10 ^ fn + fv : Nat) : Int) (-(fn : Int)) r3
      | none => parseExp (iv : Int) 0 r2
    | _ => parseExp (iv : Int) 0 rest
  | none =>
    match s with
    | '.' :: r2 =>
      match parseDigits r2 with
      | some (fv, fn, r3) => parseExp ((fv : Nat) : Int) (-(fn : Int)) r3
      | none => none
    | _ => none

/-- Case-insensitive comparison against an ASCII literal. -/
def lowerEq (s lit : Str) : Bool := s.map Char.toLower == lit

/-- Model of CPython `float(text)` on an already-stripped string: `none` means
`ValueError`. -/
def pyFloatOfStr (s : Str) : Option PyFloat :=
  match parseSign s with
  | (neg, r0) =>
    if lowerEq r0 "inf".toList || lowerEq r0 "infinity".toList then
      some (if neg then .ninf else .inf)
    else if lowerEq r0 "nan".toList then some .nan
    else
      match parseNumeric r0 with
      | some v => some (.fin (if neg then v.negVal else v))
      | none => none

/-- `clean_currency` (extractor.py lines 6-13): `None` or blank input yields
`0.0`; otherwise `'$'` and `','` are removed, the rest is stripped and fed to
`float`, and a `ValueError` is caught and turned into `0.0`.  (The
`AttributeError` arm catches non-string arguments, which the typed model
excludes.) -/
def clean_currency (t : Option Str) : PyFloat :=
  match t with
  | none => PyFloat.zero
  | some text =>
    if strip text = [] then PyFloat.zero
    else
      match pyFloatOfStr (strip (text.filter (fun c => !(c == '$') && !(c == ',')))) with
      | some v => v
      | none => PyFloat.zero

/-! ## Date model -/

structure Date where
  y : Nat
  m : Nat
  d : Nat
deriving DecidableEq, Repr

def isLeap (y : Nat) : Bool := y % 4 == 0 && (y % 100 != 0 || y % 400 == 0)

def daysInMonth (y m : Nat) : Nat :=
  if m = 2 then (if isLeap y then 29 else 28)
  else if m = 4 ∨ m = 6 ∨ m = 9 ∨ m = 11 then 30 else 31

/-- Model of `pandas.to_datetime(s, format=%m/%d/%Y)` in raise mode: one or
two digits of month and day, exactly four digits of year, a real calendar
date.  (The pandas timestamp range bound, which also raises a `ValueError`
subclass and is likewise caught by the caller, is not modelled; no claim
depends on it.) -/
def parseMDY (s : Str) : Option Date :=
  match splitOnChar '/' s with
  | [ms, ds, ys] =>
    if ms.all Char.isDigit ∧ ds.all Char.isDigit ∧ ys.all Char.isDigit ∧
        1 ≤ ms.length ∧ ms.length ≤ 2 ∧ 1 ≤ ds.length ∧ ds.length ≤ 2 ∧ ys.length = 4 then
      let m := natOfDigits ms
      let d := natOfDigits ds
      let y := natOfDigits ys
      if 1 ≤ m ∧ m ≤ 12 ∧ 1 ≤ d ∧ d ≤ daysInMonth y m then some ⟨y, m, d⟩ else none
    else none
  | _ => none

/-- `strftime(%Y-%m-%d)`: zero-padded ISO rendering. -/
def formatISO (dt : Date) : Str :=
  padZeros 4 (Nat.toDigits 10 dt.y) ++ ('-' :: padZeros 2 (Nat.toDigits 10 dt.m)) ++
    ('-' :: padZeros 2 (Nat.toDigits 10 dt.d))

/-- `parse_date_range` (extractor.py lines 15-23): split on every `'-'`, strip
the parts, require exactly two (the unpacking raises `ValueError` otherwise,
which the function catches), parse both with the strict `%m/%d/%Y` format
(failures raise `ValueError`, also caught), and return both formatted ends or
`(None, None)`. -/
def parse_date_range (s : Str) : Option Str × Option Str :=
  match (splitOnChar '-' s).map strip with
  | [a, b] =>
    match parseMDY a, parseMDY b with
    | some d1, some d2 => (some (formatISO d1), some (formatISO d2))
    | _, _ => (none, none)
  | _ => (none, none)

/-- Model of `pandas.to_datetime(s, errors=coerce)` as used by `format_date`:
the library accepts many layouts; the scraped tables carry `M/D/YYYY` dates
and this embedding models that form, with `none` standing for `NaT` on
anything else. -/
def pdToDatetimeCoerce (s : Str) : Option Date := parseMDY (strip s)

/-- `format_date` (extractor.py lines 30-35): blank input yields `None`;
otherwise coerce-parse and render ISO, `NaT` becoming `None`. -/
def format_date (s : Str) : Option Str :=
  if strip s = [] then none
  else
    match pdToDatetimeCoerce s with
    | none => none
    | some dt => some (formatISO dt)

/-! ## Document model

A document is its markup nodes in document (pre-order) order.  The nodes the
extractor interrogates are `span`s, `strong`s, free-standing `td`s and tables;
each non-table node carries the index of its parent (`group`), which is what
`find_next_sibling` scopes over.  A table's own rows and cells are held inside
the table node. -/

structure HRow where
  cells : List Str
deriving DecidableEq, Repr

structure HTable where
  idAttr : Str
  rows : List HRow
deriving DecidableEq, Repr

/-- `row.get_text()`: the row's strings concatenated. -/
def rowText (r : HRow) : Str := r.cells.foldr (· ++ ·) []

/-- `table.get_text()`: all descendant strings concatenated. -/
def tableText (t : HTable) : Str := (t.rows.map rowText).foldr (· ++ ·) []

inductive Node where
  | span (idAttr : Option Str) (text : Str) (group : Nat)
  | strong (text : Str) (group : Nat)
  | td (text : Str) (group : Nat)
  | table (t : HTable)
deriving DecidableEq, Repr

abbrev Soup := List Node

def Node.textOf : Node → Str
  | .span _ t _ => t
  | .strong t _ => t
  | .td t _ => t
  | .table t => tableText t

def Node.groupOf : Node → Option Nat
  | .span _ _ g => some g
  | .strong _ g => some g
  | .td _ g => some g
  | .table _ => none

def Node.isSpanWithId (n : Node) (i : Str) : Bool :=
  match n with
  | .span (some j) _ _ => j == i
  | _ => false

def Node.isSpanIdContaining (pat : Str) (n : Node) : Bool :=
  match n with
  | .span (some j) _ _ => containsSub pat j
  | _ => false

def Node.isTdAny : Node → Bool
  | .td _ _ => true
  | _ => false

def Node.isSpanAny : Node → Bool
  | .span _ _ _ => true
  | _ => false

/-- BeautifulSoup's `text=re.compile(r"^\x5cs*LABEL")` matcher: the element's
string starts with optional whitespace followed by the label. -/
def labelMatches (lbl t : Str) : Bool := lbl.isPrefixOf (trimStart t)

def Node.isTdLobLabel : Node → Bool
  | .td t _ => labelMatches "Lobbyist:".toList t
  | _ => false

def Node.isTdClientLabel : Node → Bool
  | .td t _ => labelMatches "Client:".toList t
  | _ => false

def Node.isStrongClientLabel : Node → Bool
  | .strong t _ => labelMatches "Client:".toList t
  | _ => false

/-- `soup.find(span, id=...)` with an exact id: first matching span in
document order, raw text. -/
def findSpanText (s : Soup) (i : Str) : Option Str :=
  match s.find? (fun n => n.isSpanWithId i) with
  | some n => some n.textOf
  | none => none

/-- `safe_get_text` (extractor.py lines 25-28), for the `span` tag the code
always passes: stripped text of the element, or `""` when absent. -/
def safe_get_text (s : Soup) (i : Str) : Str :=
  match findSpanText s i with
  | some t => strip t
  | none => []

/-- `soup.find_all(table, id=re.compile(pat))` / `id=lambda x: pat in x`:
every table whose id contains `pat`, in document order. -/
def tablesWithIdContaining (s : Soup) (pat : Str) : List HTable :=
  s.filterMap (fun n =>
    match n with
    | .table t => if containsSub pat t.idAttr then some t else none
    | _ => none)

/-- `soup.find(table, id=re.compile(pat))`: first such table only. -/
def firstTableWithIdContaining (s : Soup) (pat : Str) : Option HTable :=
  (tablesWithIdContaining s pat).head?

/-- `soup.find(table, id=...)` with an exact id. -/
def firstTableWithIdExact (s : Soup) (i : Str) : Option HTable :=
  (s.filterMap (fun n =>
    match n with
    | .table t => if t.idAttr == i then some t else none
    | _ => none)).head?

/-- Indices of the tables whose id contains `pat`, in document order. -/
def tableIdxsWithIdContaining (s : Soup) (pat : Str) : List Nat :=
  (List.range s.length).filter (fun j =>
    match s[j]? with
    | some (.table t) => containsSub pat t.idAttr
    | _ => false)

def tableAt (s : Soup) (j : Nat) : Option HTable :=
  match s[j]? with
  | some (.table t) => some t
  | _ => none

/-- `find_previous(pred)` from the node at index `i`: nearest preceding node
in document order satisfying `p`. -/
def findPrevIdx (s : Soup) (p : Node → Bool) : Nat → Option Nat
  | 0 => none
  | i + 1 =>
    match s[i]? with
    | some n => if p n then some i else findPrevIdx s p i
    | none => findPrevIdx s p i

/-- Scan a list, keeping the absolute index `k` of its head. -/
def scanFromAux (p : Node → Bool) : Nat → List Node → Option Nat
  | _, [] => none
  | k, n :: rest => if p n then some k else scanFromAux p (k + 1) rest

/-- First index `k ≥ start` whose node satisfies `p`. -/
def scanFrom (s : Soup) (p : Node → Bool) (start : Nat) : Option Nat :=
  scanFromAux p start (s.drop start)

/-- `find_next_sibling(tag)` from the node at index `j`: next following node
with the same parent (`group`) satisfying `p`. -/
def nextSiblingIdx (s : Soup) (j : Nat) (p : Node → Bool) : Option Nat :=
  match s[j]? with
  | none => none
  | some n =>
    match n.groupOf with
    | none => none
    | some g => scanFrom s (fun m => p m && (m.groupOf == some g)) (j + 1)

def nodeTextAt (s : Soup) (k : Nat) : Str :=
  match s[k]? with
  | some n => n.textOf
  | none => []

/-! ## Record types (the dicts the extractor emits) -/

structure LobbyistInfo where
  disclosure_id : Str
  first_name : Str
  last_name : Str
  employer_name : Str
  is_incidental : Bool
deriving DecidableEq, Repr

structure ClientInfo where
  disclosure_id : Str
  client_name : Str
  auth_officer_name : Str
  business_interest : Str
deriving DecidableEq, Repr

structure Compensation where
  disclosure_id : Str
  payee_name : Str
  amount : PyFloat
deriving DecidableEq, Repr

structure Activity where
  disclosure_id : Str
  individual_lobbyist_name : Str
  client_name : Str
  house_senate : Str
  bill_or_agency : Str
  bill_title : Str
  agent_position : Str
  amount : PyFloat
  business_association : Str
deriving DecidableEq, Repr

structure MetExpense where
  disclosure_id : Str
  lobbyist_name : Str
  date : Option Str
  event_type : Str
  payee_vendor : Str
  attendees : Str
  amount : PyFloat
deriving DecidableEq, Repr

structure OperatingExpense where
  disclosure_id : Str
  date : Option Str
  recipient : Str
  type_of_expense : Str
  amount : PyFloat
deriving DecidableEq, Repr

structure AdditionalExpense where
  disclosure_id : Str
  date : Option Str
  lobbyist_name : Str
  recipient_name : Str
  type_of_expense : Str
  description : Str
  amount : PyFloat
deriving DecidableEq, Repr

structure Contribution where
  disclosure_id : Str
  date : Option Str
  recipient_name : Str
  office_sought : Str
  amount : PyFloat
deriving DecidableEq, Repr

structure Report where
  disclosure_id : Str
  report_type : Str
  period_start_date : Option Str
  period_end_date : Option Str
deriving DecidableEq, Repr

/-! ## Table extractors -/

/-- Effective lobbyist name for a 5-column MET row: Python
`lobbyist_name or "N/A"`. -/
def metDefaultName (lobName : Option Str) : Str :=
  match lobName with
  | none => "N/A".toList
  | some l => if l = [] then "N/A".toList else l

/-- One data row of a MET table (extractor.py lines 43-58): skip total rows
and rows with fewer than 5 cells; a 6-cell row carries the lobbyist name in
column 1 and shifts the remaining columns right by one. -/
def metRowRecord (did : Str) (lobName : Option Str) (r : HRow) : Option MetExpense :=
  if containsSub "Total amount".toList (rowText r) || r.cells.length < 5 then none
  else
    let has6 := r.cells.length == 6
    some
      { disclosure_id := did
        lobbyist_name := if has6 then strip (r.cells.getD 1 []) else metDefaultName lobName
        date := format_date (strip (r.cells.getD 0 []))
        event_type := if has6 then strip (r.cells.getD 2 []) else strip (r.cells.getD 1 [])
        payee_vendor := if has6 then strip (r.cells.getD 3 []) else strip (r.cells.getD 2 [])
        attendees := if has6 then strip (r.cells.getD 4 []) else strip (r.cells.getD 3 [])
        amount :=
          if has6 then clean_currency (some (strip (r.cells.getD 5 [])))
          else clean_currency (some (strip (r.cells.getD 4 []))) }

/-- `parse_met_expenses` (extractor.py lines 37-60). -/
def parse_met_expenses (tbl : Option HTable) (did : Str) (lobName : Option Str) :
    List MetExpense :=
  match tbl with
  | none => []
  | some t =>
    if containsSub "No meals, travel, or entertainment expenses".toList (tableText t) then []
    else (t.rows.drop 1).filterMap (metRowRecord did lobName)

def opRowRecord (did : Str) (r : HRow) : Option OperatingExpense :=
  if containsSub "Total operating expenses".toList (rowText r) || r.cells.length < 4 then none
  else some
    { disclosure_id := did
      date := format_date (strip (r.cells.getD 0 []))
      recipient := strip (r.cells.getD 1 [])
      type_of_expense := strip (r.cells.getD 2 [])
      amount := clean_currency (some (strip (r.cells.getD 3 []))) }

/-- Records of one operating-expense table: its own placeholder check, then
its data rows (body of the branch in extractor.py lines 66-78). -/
def opTableRecords (did : Str) (t : HTable) : List OperatingExpense :=
  if containsSub "No operating expenses were filed".toList (tableText t) then []
  else (t.rows.drop 1).filterMap (opRowRecord did)

/-- `parse_operating_expenses` (extractor.py lines 62-79): uses `soup.find`,
so only the first matching table in document order is read. -/
def parse_operating_expenses (s : Soup) (did : Str) : List OperatingExpense :=
  match firstTableWithIdContaining s "grdvOperatingExpenses".toList with
  | none => []
  | some t => opTableRecords did t

def addRowRecord (did : Str) (r : HRow) : Option AdditionalExpense :=
  if containsSub "Total additional expenses".toList (rowText r) || r.cells.length < 6 then none
  else some
    { disclosure_id := did
      date := format_date (strip (r.cells.getD 0 []))
      lobbyist_name := strip (r.cells.getD 1 [])
      recipient_name := strip (r.cells.getD 2 [])
      type_of_expense := strip (r.cells.getD 3 [])
      description := strip (r.cells.getD 4 [])
      amount := clean_currency (some (strip (r.cells.getD 5 []))) }

/-- Records of one additional-expense table, with its own placeholder check
(loop body of extractor.py lines 85-101). -/
def addTableRecords (did : Str) (t : HTable) : List AdditionalExpense :=
  if containsSub "No additional expenses were filed".toList (tableText t) then []
  else (t.rows.drop 1).filterMap (addRowRecord did)

/-- `parse_additional_expenses` (extractor.py lines 81-102): `find_all`, each
table checked for its own placeholder, records appended across tables. -/
def parse_additional_expenses (s : Soup) (did : Str) : List AdditionalExpense :=
  (tablesWithIdContaining s "grdvAdditionalExpenses".toList).foldl
    (fun acc t => acc ++ addTableRecords did t) []

def contribRowRecord (did : Str) (r : HRow) : Option Contribution :=
  if containsSub "Total contributions".toList (rowText r) || r.cells.length < 4 then none
  else some
    { disclosure_id := did
      date := format_date (strip (r.cells.getD 0 []))
      recipient_name := strip (r.cells.getD 1 [])
      office_sought := strip (r.cells.getD 2 [])
      amount := clean_currency (some (strip (r.cells.getD 3 []))) }

/-- Contributions block of `parse_lobbyist_report` (extractor.py lines
169-182): `soup.find`, a single table. -/
def parse_contributions (s : Soup) (did : Str) : List Contribution :=
  match firstTableWithIdContaining s "grdvCampaignContribution".toList with
  | none => []
  | some t =>
    if containsSub "No campaign contributions were filed".toList (tableText t) then []
    else (t.rows.drop 1).filterMap (contribRowRecord did)

/-! ## Lobbyist-variant report -/

def lblLobbyistCompanyId : Str :=
  "ContentPlaceHolder1_LRegistrationInfoReview1_lblLobbyistCompany".toList
def lblLobbyistFirstNameId : Str :=
  "ContentPlaceHolder1_LRegistrationInfoReview1_lblLobbyistFirstName".toList
def lblLobbyistLastNameId : Str :=
  "ContentPlaceHolder1_LRegistrationInfoReview1_lblLobbyistLastName".toList
def lblIncidentalId : Str :=
  "ContentPlaceHolder1_LRegistrationInfoReview1_lblIncidental".toList

/-- `bool(first_name and last_name)` (extractor.py line 110). -/
def filer_is_individual (first lastN : Str) : Bool := !(first == []) && !(lastN == [])

/-- Default lobbyist name scoping an activity table (extractor.py line 122):
`f"{first} {last}".strip()` when the filer is an individual, else the
employer. -/
def activityDefault (first lastN emp : Str) : Str :=
  if filer_is_individual first lastN then strip (first ++ (' ' :: lastN)) else emp

/-- Current-lobbyist resolution for the activity table at index `idx`
(extractor.py lines 125-129). -/
def resolveLobbyistAt (s : Soup) (idx : Nat) (dflt : Str) : Str :=
  match findPrevIdx s Node.isTdLobLabel idx with
  | none => dflt
  | some j =>
    match nextSiblingIdx s j Node.isTdAny with
    | none => dflt
    | some k => strip (nodeTextAt s k)

/-- Current-client resolution (extractor.py lines 131-141): the two-cell-row
(`td`) encoding is consulted first; the `strong`+`span` encoding only when no
`td` label precedes; otherwise the default. -/
def resolveClientAt (s : Soup) (idx : Nat) (dflt : Str) : Str :=
  match findPrevIdx s Node.isTdClientLabel idx with
  | some j =>
    match nextSiblingIdx s j Node.isTdAny with
    | none => dflt
    | some k => strip (nodeTextAt s k)
  | none =>
    match findPrevIdx s Node.isStrongClientLabel idx with
    | some j =>
      match nextSiblingIdx s j Node.isSpanAny with
      | none => dflt
      | some k => strip (nodeTextAt s k)
    | none => dflt

def activityRowRecord (did lob cli : Str) (r : HRow) : Option Activity :=
  if containsSub "Total amount".toList (rowText r) || r.cells.length < 6 then none
  else some
    { disclosure_id := did
      individual_lobbyist_name := lob
      client_name := cli
      house_senate := strip (r.cells.getD 0 [])
      bill_or_agency := strip (r.cells.getD 1 [])
      bill_title := strip (r.cells.getD 2 [])
      agent_position := strip (r.cells.getD 3 [])
      amount := clean_currency (some (strip (r.cells.getD 4 [])))
      business_association := strip (r.cells.getD 5 []) }

/-- Activity records of the activity table at index `idx` (extractor.py lines
121-155). -/
def tableActivitiesAt (s : Soup) (did : Str) (idx : Nat) : List Activity :=
  match tableAt s idx with
  | none => []
  | some t =>
    let emp := safe_get_text s lblLobbyistCompanyId
    let first := safe_get_text s lblLobbyistFirstNameId
    let lastN := safe_get_text s lblLobbyistLastNameId
    let lob := resolveLobbyistAt s idx (activityDefault first lastN emp)
    let cli := resolveClientAt s idx emp
    (t.rows.drop 1).filterMap (activityRowRecord did lob cli)

/-- Python `str.replace("Lobbyist: ", "")`: remove every occurrence, scanning
left to right (the marker is matched by its ten characters). -/
def removeLobMarker : Str → Str
  | 'L' :: 'o' :: 'b' :: 'b' :: 'y' :: 'i' :: 's' :: 't' :: ':' :: ' ' :: rest =>
    removeLobMarker rest
  | c :: rest => c :: removeLobMarker rest
  | [] => []

/-- Ambient lobbyist name for the MET table at index `idx` (extractor.py
lines 161-162). -/
def metAmbientAt (s : Soup) (idx : Nat) (first lastN : Str) : Str :=
  match findPrevIdx s (Node.isSpanIdContaining "lblLobbyistName".toList) idx with
  | some j => removeLobMarker (strip (nodeTextAt s j))
  | none => strip (first ++ (' ' :: lastN))

structure LobBundle where
  info : LobbyistInfo
  activities : List Activity
  met_expenses : List MetExpense
  operating_expenses : List OperatingExpense
  additional_expenses : List AdditionalExpense
  contributions : List Contribution
deriving DecidableEq, Repr

/-- `parse_lobbyist_report` (extractor.py lines 104-184). -/
def parse_lobbyist_report (s : Soup) (did : Str) : LobBundle :=
  let emp := safe_get_text s lblLobbyistCompanyId
  let first := safe_get_text s lblLobbyistFirstNameId
  let lastN := safe_get_text s lblLobbyistLastNameId
  { info :=
      { disclosure_id := did
        first_name := if first = [] then emp else first
        last_name := lastN
        employer_name := emp
        is_incidental := (findSpanText s lblIncidentalId).isSome }
    activities :=
      (tableIdxsWithIdContaining s "grdvActivitiesNew".toList).foldl
        (fun acc i => acc ++ tableActivitiesAt s did i) []
    met_expenses :=
      (tableIdxsWithIdContaining s "grdvMETExpenses".toList).foldl
        (fun acc i =>
          acc ++ parse_met_expenses (tableAt s i) did (some (metAmbientAt s i first lastN))) []
    operating_expenses := parse_operating_expenses s did
    additional_expenses := parse_additional_expenses s did
    contributions := parse_contributions s did }

/-! ## Client-variant report -/

def lblClientCompanyId : Str :=
  "ContentPlaceHolder1_CRegistrationInfoReview1_lblClientCompany".toList
def lblOfficerFirstId : Str :=
  "ContentPlaceHolder1_CRegistrationInfoReview1_lblClientAuthorizingOfficerFirstName".toList
def lblOfficerLastId : Str :=
  "ContentPlaceHolder1_CRegistrationInfoReview1_lblClientAuthorizingOfficerLastName".toList
def lblBusinessInterestId : Str :=
  "ContentPlaceHolder1_CRegistrationInfoReview1_lblBusinessInterest".toList
def salaryPaidTableId : Str :=
  "ContentPlaceHolder1_DisclosureReviewDetail1_grdvSalaryPaid".toList

def compRowRecord (did : Str) (r : HRow) : Option Compensation :=
  if containsSub "Total".toList (rowText r) || r.cells.length < 2 then none
  else some
    { disclosure_id := did
      payee_name := strip (r.cells.getD 0 [])
      amount := clean_currency (some (strip (r.cells.getD 1 []))) }

structure CliBundle where
  info : ClientInfo
  compensations : List Compensation
  met_expenses : List MetExpense
  operating_expenses : List OperatingExpense
  additional_expenses : List AdditionalExpense
deriving DecidableEq, Repr

/-- `parse_client_report` (extractor.py lines 186-216): the MET table is
looked up with `soup.find` (first match only) and `parse_met_expenses` is
called without a lobbyist name. -/
def parse_client_report (s : Soup) (did : Str) : CliBundle :=
  { info :=
      { disclosure_id := did
        client_name := safe_get_text s lblClientCompanyId
        auth_officer_name :=
          strip (safe_get_text s lblOfficerFirstId ++ (' ' :: safe_get_text s lblOfficerLastId))
        business_interest := safe_get_text s lblBusinessInterestId }
    compensations :=
      match firstTableWithIdExact s salaryPaidTableId with
      | none => []
      | some t => (t.rows.drop 1).filterMap (compRowRecord did)
    met_expenses :=
      parse_met_expenses (firstTableWithIdContaining s "grdvMETExpenses".toList) did none
    operating_expenses := parse_operating_expenses s did
    additional_expenses := parse_additional_expenses s did }

/-! ## Disclosure identifier derivation (extractor.py lines 246-251) -/

def svPat : Str := "sysvalue=".toList
def htmlPat : Str := ".html".toList

/-- Greedy tail of `re.search(r"sysvalue=(.+)\x2ehtml", ...)`: the largest
`j ≥ 1` such that `".html"` starts at `j` and the region before it (matched
by `.+`) contains no newline; counting `n` down. -/
def lastValidIdx (xs : Str) : Nat → Option Nat
  | 0 => none
  | j + 1 =>
    if htmlPat.isPrefixOf (xs.drop (j + 1)) && !((xs.take (j + 1)).contains '\n') then
      some (j + 1)
    else lastValidIdx xs j

/-- `re.search(r"sysvalue=(.+)\x2ehtml", fn)`: leftmost start where
`"sysvalue="` matches literally and some later `".html"` completes the match;
`.+` is greedy, so group 1 runs to the last such `".html"`. -/
def svSearch : Str → Option Str
  | [] => none
  | c :: rest =>
    if svPat.isPrefixOf (c :: rest) then
      match lastValidIdx ((c :: rest).drop 9) ((c :: rest).drop 9).length with
      | some j => some (((c :: rest).drop 9).take j)
      | none => svSearch rest
    else svSearch rest

/-- Python `str.replace("%2f", "/")`: left-to-right non-overlapping
replacement. -/
def decode2f : Str → Str
  | '%' :: '2' :: 'f' :: rest => '/' :: decode2f rest
  | c :: rest => c :: decode2f rest
  | [] => []

/-- `s.rfind('.')` scanning positions below `n` from the top. -/
def lastDotIdx (s : Str) : Nat → Option Nat
  | 0 => none
  | j + 1 => if s[j]? = some '.' then some j else lastDotIdx s j

/-- `os.path.splitext(p)[0]`: cut at the last dot, unless every character
before that dot is itself a dot (leading dots of the base name are ignored). -/
def splitextBase (s : Str) : Str :=
  match lastDotIdx s s.length with
  | none => s
  | some r => if (s.take r).any (fun c => !(c == '.')) then s.take r else s

/-- The identifier `main` derives for a file (extractor.py lines 246-251). -/
def deriveDisclosureId (filename : Str) : Str :=
  match svSearch filename with
  | some v => decode2f v
  | none => splitextBase filename

/-! ## Batch orchestration (extractor.py `main`, lines 218-307) -/

def headerSpanId : Str := "ContentPlaceHolder1_lblDisclosureHeader".toList
def yearSpanId : Str := "ContentPlaceHolder1_lblYear".toList

structure FileDoc where
  filename : Str
  soup : Soup
deriving DecidableEq, Repr

/-- The accumulator lists and counters of `main`. -/
structure BatchState where
  skipped_files_log : List Str
  disclosure_reports : List Report
  lobbyists : List LobbyistInfo
  clients : List ClientInfo
  compensations : List Compensation
  lobbying_activities : List Activity
  met_expenses : List MetExpense
  operating_expenses : List OperatingExpense
  additional_expenses : List AdditionalExpense
  contributions : List Contribution
  processed_count : Nat
  skipped_no_header : Nat
  skipped_other_error : Nat
deriving DecidableEq, Repr

def initialState : BatchState :=
  { skipped_files_log := [], disclosure_reports := [], lobbyists := [], clients := []
    compensations := [], lobbying_activities := [], met_expenses := []
    operating_expenses := [], additional_expenses := [], contributions := []
    processed_count := 0, skipped_no_header := 0, skipped_other_error := 0 }

/-- The DisclosureReport row `main` appends for a file whose header text
(already stripped) is `h` (extractor.py lines 264-271). -/
def reportRowFor (fd : FileDoc) (h : Str) : Report :=
  { disclosure_id := deriveDisclosureId fd.filename
    report_type := if containsSub "Lobbyist".toList h then "Lobbyist".toList else "Client".toList
    period_start_date := (parse_date_range (safe_get_text fd.soup yearSpanId)).1
    period_end_date := (parse_date_range (safe_get_text fd.soup yearSpanId)).2 }

/-- One iteration of the file loop in `main` (extractor.py lines 242-290).
The `try` block appends the DisclosureReport row and then runs the
variant-specific parser; `except Exception` is modelled by taking the two
variant parsers as `Except`-valued parameters, so that an exception raised
inside them (the block's only fallible calls after the append) is
representable.  On error the appended report row is NOT rolled back; the file
is logged and counted under `skipped_other_error`. -/
def processFileGen (pL : Soup → Str → Except Str LobBundle)
    (pC : Soup → Str → Except Str CliBundle) (st : BatchState) (fd : FileDoc) : BatchState :=
  let did := deriveDisclosureId fd.filename
  match findSpanText fd.soup headerSpanId with
  | none =>
    { st with
      skipped_no_header := st.skipped_no_header + 1
      skipped_files_log :=
        st.skipped_files_log ++
          [fd.filename ++ " (Reason: Invalid Content / No Header)".toList] }
  | some raw =>
    let header_text := strip raw
    let st1 := { st with disclosure_reports := st.disclosure_reports ++ [reportRowFor fd header_text] }
    if containsSub "Lobbyist".toList (reportRowFor fd header_text).report_type then
      match pL fd.soup did with
      | .ok b =>
        { st1 with
          lobbyists := st1.lobbyists ++ [b.info]
          lobbying_activities := st1.lobbying_activities ++ b.activities
          met_expenses := st1.met_expenses ++ b.met_expenses
          operating_expenses := st1.operating_expenses ++ b.operating_expenses
          additional_expenses := st1.additional_expenses ++ b.additional_expenses
          contributions := st1.contributions ++ b.contributions
          processed_count := st1.processed_count + 1 }
      | .error e =>
        { st1 with
          skipped_other_error := st1.skipped_other_error + 1
          skipped_files_log :=
            st1.skipped_files_log ++
              [fd.filename ++ " (Reason: Parsing Error - ".toList ++ e ++ ")".toList] }
    else
      match pC fd.soup did with
      | .ok b =>
        { st1 with
          clients := st1.clients ++ [b.info]
          compensations := st1.compensations ++ b.compensations
          met_expenses := st1.met_expenses ++ b.met_expenses
          operating_expenses := st1.operating_expenses ++ b.operating_expenses
          additional_expenses := st1.additional_expenses ++ b.additional_expenses
          processed_count := st1.processed_count + 1 }
      | .error e =>
        { st1 with
          skipped_other_error := st1.skipped_other_error + 1
          skipped_files_log :=
            st1.skipped_files_log ++
              [fd.filename ++ " (Reason: Parsing Error - ".toList ++ e ++ ")".toList] }

/-- The loop iteration with the repository's actual (total) parsers. -/
def processFile : BatchState → FileDoc → BatchState :=
  processFileGen (fun s d => .ok (parse_lobbyist_report s d))
    (fun s d => .ok (parse_client_report s d))

/-- The whole batch loop of `main`, over the `.html`-filtered listing. -/
def runBatch (files : List FileDoc) : BatchState :=
  (files.filter (fun f => htmlPat.isSuffixOf f.filename)).foldl processFile initialState

/-- `DataFrame.drop_duplicates(subset=[disclosure_id])`: keep a row iff its
key was not seen earlier. -/
def dedupByKey {α : Type} (key : α → Str) : List Str → List α → List α
  | _, [] => []
  | seen, r :: rest =>
    if key r ∈ seen then dedupByKey key seen rest
    else r :: dedupByKey key (key r :: seen) rest

/-- The aggregated lobbyists collection `main` writes out (extractor.py line
306). -/
def finalLobbyists (files : List FileDoc) : List LobbyistInfo :=
  dedupByKey LobbyistInfo.disclosure_id [] (runBatch files).lobbyists

/-- The aggregated clients collection (extractor.py line 307). -/
def finalClients (files : List FileDoc) : List ClientInfo :=
  dedupByKey ClientInfo.disclosure_id [] (runBatch files).clients

/-! ## Helper lemmas -/

lemma foldl_append_eq_join {α β : Type} (f : α → List β) (l : List α) (acc : List β) :
    l.foldl (fun a x => a ++ f x) acc = acc ++ (l.map f).flatten := by
  induction l generalizing acc with
  | nil => simp
  | cons x xs ih => simp [List.foldl_cons, ih]

lemma mem_foldl_append {α β : Type} (f : α → List β) (l : List α) (b : β)
    (h : b ∈ l.foldl (fun acc x => acc ++ f x) []) : ∃ x ∈ l, b ∈ f x := by
  rw [foldl_append_eq_join] at h
  simp only [List.nil_append, List.mem_flatten, List.mem_map] at h
  obtain ⟨lx, ⟨x, hx, hfx⟩, hb⟩ := h
  exact ⟨x, hx, hfx ▸ hb⟩

lemma dropWhile_head_not (p : Char → Bool) (s : Str) (c : Char)
    (h : (s.dropWhile p).head? = some c) : p c = false := by
  induction s with
  | nil => simp at h
  | cons a t ih =>
    by_cases hp : p a
    · rw [List.dropWhile_cons, if_pos hp] at h
      exact ih h
    · rw [List.dropWhile_cons, if_neg hp] at h
      simp at h
      rw [← h]
      exact Bool.eq_false_iff.mpr hp

lemma dropWhile_eq_self_of_head (p : Char → Bool) (l : Str) (c : Char)
    (h : l.head? = some c) (hc : p c = false) : l.dropWhile p = l := by
  cases l with
  | nil => rfl
  | cons a t =>
    have ha : p a = false := by
      have h2 : a = c := by simpa using h
      rw [h2]; exact hc
    rw [List.dropWhile_cons, if_neg (by simp [ha])]

lemma length_dropWhile_le (p : Char → Bool) (s : Str) :
    (s.dropWhile p).length ≤ s.length := by
  induction s with
  | nil => simp
  | cons a t ih =>
    rw [List.dropWhile_cons]
    by_cases hp : p a
    · rw [if_pos hp]
      simp only [List.length_cons]
      omega
    · rw [if_neg hp]

lemma getLast?_of_ne_nil (l : Str) (h : l ≠ []) : ∃ c, l.getLast? = some c := by
  induction l with
  | nil => exact absurd rfl h
  | cons a t ih =>
    cases t with
    | nil => exact ⟨a, rfl⟩
    | cons b u =>
      obtain ⟨c, hc⟩ := ih (by simp)
      exact ⟨c, by rw [List.getLast?_cons_cons]; exact hc⟩

lemma head?_append_left (x y : Str) (c : Char) (h : x.head? = some c) :
    (x ++ y).head? = some c := by
  cases x with
  | nil => simp at h
  | cons a t => simpa using h

lemma getLast?_append_ne_nil (u t : Str) (ht : t ≠ []) :
    (u ++ t).getLast? = t.getLast? := by
  obtain ⟨c, hc⟩ := getLast?_of_ne_nil t ht
  rw [hc, ← List.head?_reverse, List.reverse_append]
  rw [← List.head?_reverse] at hc
  exact head?_append_left _ _ _ hc

lemma strip_head_not_ws (s : Str) (c : Char) (h : (strip s).head? = some c) :
    c.isWhitespace = false := by
  unfold strip at h
  rw [List.head?_reverse] at h
  obtain ⟨u, hu⟩ := List.dropWhile_suffix (l := (trimStart s).reverse) (p := Char.isWhitespace)
  have hne : (trimStart s).reverse.dropWhile Char.isWhitespace ≠ [] := by
    intro hnil
    rw [hnil] at h
    simp at h
  have hX : ((trimStart s).reverse).getLast? = some c := by
    rw [← hu, getLast?_append_ne_nil u _ hne]
    exact h
  rw [List.getLast?_reverse] at hX
  exact dropWhile_head_not Char.isWhitespace s c hX

lemma strip_last_not_ws (s : Str) (c : Char) (h : (strip s).getLast? = some c) :
    c.isWhitespace = false := by
  unfold strip at h
  rw [List.getLast?_reverse] at h
  exact dropWhile_head_not Char.isWhitespace _ c h

lemma strip_eq_self (u : Str) (h1 : ∀ c, u.head? = some c → c.isWhitespace = false)
    (h2 : ∀ c, u.getLast? = some c → c.isWhitespace = false) : strip u = u := by
  rcases hu : u with _ | ⟨a, t⟩
  · rfl
  · have ha : Char.isWhitespace a = false := h1 a (by rw [hu]; rfl)
    have htrim : trimStart (a :: t) = a :: t := by
      simp [trimStart, List.dropWhile_cons, ha]
    obtain ⟨c, hc⟩ := getLast?_of_ne_nil (a :: t) (by simp)
    have hcws := h2 c (by rw [hu]; exact hc)
    have hrevhead : (a :: t).reverse.head? = some c := by
      rw [List.head?_reverse]; exact hc
    have hdrop : (a :: t).reverse.dropWhile Char.isWhitespace = (a :: t).reverse :=
      dropWhile_eq_self_of_head _ _ c hrevhead hcws
    unfold strip
    rw [htrim, hdrop, List.reverse_reverse]

lemma strip_idem (s : Str) : strip (strip s) = strip s :=
  strip_eq_self (strip s) (fun c hc => strip_head_not_ws s c hc)
    (fun c hc => strip_last_not_ws s c hc)

lemma strip_safe_get_text (s : Soup) (i : Str) :
    strip (safe_get_text s i) = safe_get_text s i := by
  unfold safe_get_text
  rcases findSpanText s i with _ | t
  · rfl
  · exact strip_idem t

lemma strip_append_of_fixed (A B : Str) (hA : strip A = A) (hB : strip B = B)
    (hA0 : A ≠ []) (hB0 : B ≠ []) : strip (A ++ (' ' :: B)) = A ++ (' ' :: B) := by
  apply strip_eq_self
  · intro c hc
    rcases hAe : A with _ | ⟨a, t⟩
    · exact absurd hAe hA0
    · rw [hAe, List.cons_append] at hc
      simp at hc
      apply strip_head_not_ws A c
      rw [hA, hAe]
      simp [hc]
  · intro c hc
    have hgB : (A ++ (' ' :: B)).getLast? = B.getLast? := by
      rw [getLast?_append_ne_nil A _ (by simp)]
      rcases hBe : B with _ | ⟨b, u⟩
      · exact absurd hBe hB0
      · rw [List.getLast?_cons_cons]
    rw [hgB] at hc
    apply strip_last_not_ws B c
    rw [hB]
    exact hc

/-! ## Claim C5 -/

/-- C5: `parse_date_range` is all-or-nothing.  For every input string, either
the split on the dash separator yields exactly two parts and both parts parse
as dates, in which case both ends are returned as formatted dates, or the
result is `(none, none)` for both ends; a partial result with exactly one end
present is never returned, and (being a total function) the model never
raises.  The spec's two examples are verified concretely. -/
theorem claim_C5_date_range_all_or_nothing :
    (∀ s : Str, parse_date_range s = (none, none) ∨
      ∃ a b d1 d2, (splitOnChar '-' s).map strip = [a, b] ∧ parseMDY a = some d1 ∧
        parseMDY b = some d2 ∧
        parse_date_range s = (some (formatISO d1), some (formatISO d2))) ∧
    parse_date_range "01/02/2024 - 03/04/2024".toList =
      (some "2024-01-02".toList, some "2024-03-04".toList) ∧
    parse_date_range "garbage".toList = (none, none) := by
  refine ⟨?_, by decide, by decide⟩
  intro s
  unfold parse_date_range
  rcases hs : (splitOnChar '-' s).map strip with _ | ⟨a, _ | ⟨b, _ | ⟨c, tl⟩⟩⟩
  · exact Or.inl rfl
  · exact Or.inl rfl
  · rcases h1 : parseMDY a with _ | d1
    · left
      simp [h1]
    · rcases h2 : parseMDY b with _ | d2
      · left
        simp [h1, h2]
      · right
        exact ⟨a, b, d1, d2, rfl, h1, h2, by simp [h1, h2]⟩
  · exact Or.inl rfl

/-! ## Claim C8 -/

/-- C8: `clean_currency` never raises: for every input it returns a float,
`0.0` for `None`, blank, or unparsable input, and otherwise the numeric value
of the input with `'$'` and `','` stripped; `clean_currency("$1,234.50") ==
1234.50`. -/
theorem claim_C8_clean_currency_total :
    clean_currency (some "$1,234.50".toList) = PyFloat.fin (DecVal.make 123450 (-2)) ∧
    (DecVal.make 123450 (-2)).toRat = (1234.5 : ℚ) ∧
    clean_currency (some "".toList) = PyFloat.zero ∧
    clean_currency none = PyFloat.zero ∧
    (∀ t : Option Str, clean_currency t = PyFloat.zero ∨
      ∃ s v, t = some s ∧
        pyFloatOfStr (strip (s.filter (fun c => !(c == '$') && !(c == ',')))) = some v ∧
        clean_currency t = v) := by
  refine ⟨by decide, by rw [make_toRat]; norm_num, by decide, by rfl, ?_⟩
  intro t
  rcases t with _ | s
  · exact Or.inl rfl
  · by_cases h0 : strip s = []
    · left
      simp [clean_currency, h0]
    · rcases hp : pyFloatOfStr (strip (s.filter (fun c => !(c == '$') && !(c == ',')))) with _ | v
      · left
        simp [clean_currency, h0, hp]
      · right
        exact ⟨s, v, rfl, hp, by simp [clean_currency, h0, hp]⟩

/-! ## Claim C3 -/

/-- C3: MET-expense column mapping.  A row with exactly 6 cells takes its
`lobbyist_name` from column 1 and `event_type`, `payee_vendor`, `attendees`,
`amount` from columns 2-5; a row with exactly 5 cells takes the
caller-supplied (ambient) lobbyist name and the same fields from columns 1-4,
with the amount run through the currency normalizer and the date column
through the date normalizer. -/
theorem claim_C3_met_columns (did lob : Str) (r : HRow) (hlob : lob ≠ [])
    (hTot : containsSub "Total amount".toList (rowText r) = false) :
    (r.cells.length = 6 →
      metRowRecord did (some lob) r = some
        { disclosure_id := did
          lobbyist_name := strip (r.cells.getD 1 [])
          date := format_date (strip (r.cells.getD 0 []))
          event_type := strip (r.cells.getD 2 [])
          payee_vendor := strip (r.cells.getD 3 [])
          attendees := strip (r.cells.getD 4 [])
          amount := clean_currency (some (strip (r.cells.getD 5 []))) }) ∧
    (r.cells.length = 5 →
      metRowRecord did (some lob) r = some
        { disclosure_id := did
          lobbyist_name := lob
          date := format_date (strip (r.cells.getD 0 []))
          event_type := strip (r.cells.getD 1 [])
          payee_vendor := strip (r.cells.getD 2 [])
          attendees := strip (r.cells.getD 3 [])
          amount := clean_currency (some (strip (r.cells.getD 4 []))) }) := by
  constructor
  · intro h6
    unfold metRowRecord
    rw [hTot]
    simp [h6]
  · intro h5
    unfold metRowRecord
    rw [hTot]
    simp [h5, metDefaultName, hlob]

def c3row : HRow :=
  ⟨["01/02/2024".toList, "Dinner".toList, "Cafe".toList, "Rep Smith".toList, "$10.00".toList]⟩

theorem claim_C3_met_columns_witness :
    ("Jane Doe".toList ≠ ([] : Str)) ∧
    containsSub "Total amount".toList (rowText c3row) = false ∧
    metRowRecord "D1".toList (some "Jane Doe".toList) c3row = some
      { disclosure_id := "D1".toList
        lobbyist_name := "Jane Doe".toList
        date := some "2024-01-02".toList
        event_type := "Dinner".toList
        payee_vendor := "Cafe".toList
        attendees := "Rep Smith".toList
        amount := PyFloat.fin (DecVal.make 10 0) } := by
  refine ⟨by decide, by decide, ?_⟩
  have h := (claim_C3_met_columns "D1".toList "Jane Doe".toList c3row (by decide) (by decide)).2
    (by decide)
  rw [h]
  rfl

/-! ## Claim C10 -/

/-- C10: in the Client variant, MET extraction is invoked on the first
matching table with no ambient lobbyist name, so every 5-cell MET row yields
a record whose `lobbyist_name` is the literal `"N/A"` (never empty or
absent), while a 6-cell row still takes its `lobbyist_name` from column 1. -/
theorem claim_C10_client_met_default (s : Soup) (did : Str) :
    (parse_client_report s did).met_expenses =
      parse_met_expenses (firstTableWithIdContaining s "grdvMETExpenses".toList) did none ∧
    (∀ r : HRow, containsSub "Total amount".toList (rowText r) = false →
      (r.cells.length = 5 →
        (metRowRecord did none r).map MetExpense.lobbyist_name = some "N/A".toList) ∧
      (r.cells.length = 6 →
        (metRowRecord did none r).map MetExpense.lobbyist_name =
          some (strip (r.cells.getD 1 [])))) := by
  refine ⟨rfl, ?_⟩
  intro r h
  constructor
  · intro h5
    unfold metRowRecord
    rw [h]
    simp [h5, metDefaultName]
  · intro h6
    unfold metRowRecord
    rw [h]
    simp [h6]

def c10row : HRow :=
  ⟨["".toList, "Lunch".toList, "Deli".toList, "Staff".toList, "$8.00".toList]⟩

theorem claim_C10_client_met_default_witness :
    containsSub "Total amount".toList (rowText c10row) = false ∧
    (metRowRecord "D2".toList none c10row).map MetExpense.lobbyist_name =
      some "N/A".toList := by
  refine ⟨by decide, ?_⟩
  exact ((claim_C10_client_met_default [] "D2".toList).2 c10row (by decide)).1 (by decide)

/-! ## Claim C6 -/

/-- C6: a Lobbyist-variant filer is classified as an individual iff both the
first-name and last-name fields are non-empty; when individual, the default
lobbyist name used for activity/context resolution is `"first last"`, and
otherwise it is the employer/organization name. -/
theorem claim_C6_individual_filer (s : Soup) :
    (filer_is_individual (safe_get_text s lblLobbyistFirstNameId)
        (safe_get_text s lblLobbyistLastNameId) = true ↔
      (safe_get_text s lblLobbyistFirstNameId ≠ [] ∧
        safe_get_text s lblLobbyistLastNameId ≠ [])) ∧
    (filer_is_individual (safe_get_text s lblLobbyistFirstNameId)
        (safe_get_text s lblLobbyistLastNameId) = true →
      activityDefault (safe_get_text s lblLobbyistFirstNameId)
          (safe_get_text s lblLobbyistLastNameId) (safe_get_text s lblLobbyistCompanyId) =
        safe_get_text s lblLobbyistFirstNameId ++
          (' ' :: safe_get_text s lblLobbyistLastNameId)) ∧
    (filer_is_individual (safe_get_text s lblLobbyistFirstNameId)
        (safe_get_text s lblLobbyistLastNameId) = false →
      activityDefault (safe_get_text s lblLobbyistFirstNameId)
          (safe_get_text s lblLobbyistLastNameId) (safe_get_text s lblLobbyistCompanyId) =
        safe_get_text s lblLobbyistCompanyId) := by
  have hiff : filer_is_individual (safe_get_text s lblLobbyistFirstNameId)
      (safe_get_text s lblLobbyistLastNameId) = true ↔
      (safe_get_text s lblLobbyistFirstNameId ≠ [] ∧
        safe_get_text s lblLobbyistLastNameId ≠ []) := by
    simp [filer_is_individual]
  refine ⟨hiff, ?_, ?_⟩
  · intro h
    obtain ⟨h1, h2⟩ := hiff.mp h
    unfold activityDefault
    rw [if_pos h]
    exact strip_append_of_fixed _ _ (strip_safe_get_text s _) (strip_safe_get_text s _) h1 h2
  · intro h
    unfold activityDefault
    rw [if_neg (by simp [h])]

def c6soup : Soup :=
  [ Node.span (some lblLobbyistFirstNameId) "Jane".toList 0
  , Node.span (some lblLobbyistLastNameId) "Doe".toList 0
  , Node.span (some lblLobbyistCompanyId) "Acme Corp".toList 0 ]

theorem claim_C6_individual_filer_witness :
    filer_is_individual (safe_get_text c6soup lblLobbyistFirstNameId)
        (safe_get_text c6soup lblLobbyistLastNameId) = true ∧
    activityDefault (safe_get_text c6soup lblLobbyistFirstNameId)
        (safe_get_text c6soup lblLobbyistLastNameId)
        (safe_get_text c6soup lblLobbyistCompanyId) = "Jane Doe".toList := by
  refine ⟨by decide, ?_⟩
  have h := (claim_C6_individual_filer c6soup).2.1 (by decide)
  rw [h]
  decide

/-! ## Claim C2 -/

/-- `findPrevIdx` returns the NEAREST preceding matching node: the found
index matches and nothing strictly between it and the start index does. -/
lemma findPrevIdx_spec (s : Soup) (p : Node → Bool) (i j : Nat)
    (h : findPrevIdx s p i = some j) :
    j < i ∧ (∃ n, s[j]? = some n ∧ p n = true) ∧
      ∀ k, j < k → k < i → ∀ n, s[k]? = some n → p n = false := by
  induction i with
  | zero => simp [findPrevIdx] at h
  | succ i ih =>
    unfold findPrevIdx at h
    rcases hn : s[i]? with _ | n
    · simp only [hn] at h
      obtain ⟨h1, h2, h3⟩ := ih h
      refine ⟨by omega, h2, ?_⟩
      intro k hk1 hk2 m hkm
      rcases Nat.lt_or_ge k i with hlt | hge
      · exact h3 k hk1 hlt m hkm
      · have hki : k = i := by omega
        subst hki
        rw [hn] at hkm
        cases hkm
    · simp only [hn] at h
      by_cases hp : p n = true
      · rw [if_pos hp] at h
        cases h
        refine ⟨Nat.lt_succ_self _, ⟨n, hn, hp⟩, ?_⟩
        intro k hk1 hk2 m hkm
        omega
      · rw [if_neg hp] at h
        obtain ⟨h1, h2, h3⟩ := ih h
        refine ⟨by omega, h2, ?_⟩
        intro k hk1 hk2 m hkm
        rcases Nat.lt_or_ge k i with hlt | hge
        · exact h3 k hk1 hlt m hkm
        · have hki : k = i := by omega
          subst hki
          rw [hn] at hkm
          cases hkm
          exact Bool.eq_false_iff.mpr hp

/-- C2 (amended): for every activity table, the client name is resolved from
the nearest preceding `td` label in document order (first match walking
backward), reading the next `td` sibling; the `strong`+`span` encoding is
only consulted when NO `td` label precedes (encoding order, not distance);
and when no label at all precedes, the client name falls back to the
employer/organization field — not to the individual filer's full name. -/
theorem claim_C2_client_resolver_amended (s : Soup) (idx : Nat) (dflt : Str) :
    (∀ j, findPrevIdx s Node.isTdClientLabel idx = some j →
      (j < idx ∧ (∃ n, s[j]? = some n ∧ n.isTdClientLabel = true) ∧
        ∀ k, j < k → k < idx → ∀ n, s[k]? = some n → n.isTdClientLabel = false)) ∧
    (∀ j k, findPrevIdx s Node.isTdClientLabel idx = some j →
      nextSiblingIdx s j Node.isTdAny = some k →
      resolveClientAt s idx dflt = strip (nodeTextAt s k)) ∧
    (∀ j k, findPrevIdx s Node.isTdClientLabel idx = none →
      findPrevIdx s Node.isStrongClientLabel idx = some j →
      nextSiblingIdx s j Node.isSpanAny = some k →
      resolveClientAt s idx dflt = strip (nodeTextAt s k)) ∧
    (findPrevIdx s Node.isTdClientLabel idx = none →
      findPrevIdx s Node.isStrongClientLabel idx = none →
      resolveClientAt s idx dflt = dflt) ∧
    (∀ did a, a ∈ tableActivitiesAt s did idx →
      a.client_name = resolveClientAt s idx (safe_get_text s lblLobbyistCompanyId)) := by
  refine ⟨?_, ?_, ?_, ?_, ?_⟩
  · intro j hj
    exact findPrevIdx_spec s Node.isTdClientLabel idx j hj
  · intro j k h1 h2
    unfold resolveClientAt
    simp only [h1, h2]
  · intro j k h0 h1 h2
    unfold resolveClientAt
    simp only [h0, h1, h2]
  · intro h0 h1
    unfold resolveClientAt
    simp only [h0, h1]
  · intro did a ha
    unfold tableActivitiesAt at ha
    rcases ht : tableAt s idx with _ | t
    · rw [ht] at ha
      simp at ha
    · rw [ht] at ha
      simp only [List.mem_filterMap] at ha
      obtain ⟨r, hr, hrec⟩ := ha
      unfold activityRowRecord at hrec
      split at hrec
      · cases hrec
      · cases hrec
        rfl

/-- Primary filer name as the spec's words define it (an individual's full
name, else the organization name); used only to compare the resolver's
fallback against the claim. -/
def specPrimaryFilerName (s : Soup) : Str :=
  if filer_is_individual (safe_get_text s lblLobbyistFirstNameId)
      (safe_get_text s lblLobbyistLastNameId) then
    safe_get_text s lblLobbyistFirstNameId ++ (' ' :: safe_get_text s lblLobbyistLastNameId)
  else safe_get_text s lblLobbyistCompanyId

def c2soup : Soup :=
  [ Node.span (some lblLobbyistFirstNameId) "Jane".toList 0
  , Node.span (some lblLobbyistLastNameId) "Doe".toList 0
  , Node.span (some lblLobbyistCompanyId) "Acme Corp".toList 0
  , Node.table ⟨"grdvActivitiesNew1".toList,
      [ ⟨["hdr".toList]⟩
      , ⟨["House".toList, "HB1".toList, "Title".toList, "Support".toList, "$1.00".toList,
          "None".toList]⟩ ]⟩ ]

/-- C2 fails as stated: in a Lobbyist-variant document by an individual filer
with no label preceding its activity table, the resolver assigns the
EMPLOYER field as client name, not the document's primary filer name (the
individual's full name), contradicting the claim's fallback clause. -/
theorem claim_C2_counterexample :
    findPrevIdx c2soup Node.isTdClientLabel 3 = none ∧
    findPrevIdx c2soup Node.isStrongClientLabel 3 = none ∧
    specPrimaryFilerName c2soup = "Jane Doe".toList ∧
    (tableActivitiesAt c2soup "D9".toList 3).map Activity.client_name = ["Acme Corp".toList] ∧
    "Acme Corp".toList ≠ "Jane Doe".toList := by
  exact ⟨by decide, by decide, by decide, by decide, by decide⟩

def c2wsoup : Soup :=
  [ Node.td "Client:".toList 7
  , Node.td " Beta LLC ".toList 7
  , Node.span (some lblLobbyistCompanyId) "Acme Corp".toList 0
  , Node.table ⟨"grdvActivitiesNew1".toList, [⟨["hdr".toList]⟩]⟩ ]

theorem claim_C2_client_resolver_amended_witness :
    findPrevIdx c2wsoup Node.isTdClientLabel 3 = some 0 ∧
    nextSiblingIdx c2wsoup 0 Node.isTdAny = some 1 ∧
    resolveClientAt c2wsoup 3 "dflt".toList = "Beta LLC".toList := by
  refine ⟨by decide, by decide, ?_⟩
  have h := (claim_C2_client_resolver_amended c2wsoup 3 "dflt".toList).2.1 0 1
    (by decide) (by decide)
  rw [h]
  decide

/-! ## Claim C1 -/

def c1soup : Soup := [Node.span (some headerSpanId) "Lobbyist Disclosure".toList 0]

def c1fd : FileDoc := ⟨"doc1.html".toList, c1soup⟩

/-- C1 fails as stated: a document whose header is found and whose variant
parse then raises IS counted as skipped and logged, but its DisclosureReport
row — appended before the variant parser ran — remains in the batch output,
so "no record of any entity type (including the DisclosureReport row)" is
false. -/
theorem claim_C1_counterexample :
    (processFileGen (fun _ _ => Except.error "boom".toList)
        (fun s d => Except.ok (parse_client_report s d)) initialState c1fd).skipped_other_error
      = 1 ∧
    (processFileGen (fun _ _ => Except.error "boom".toList)
        (fun s d => Except.ok (parse_client_report s d)) initialState c1fd).disclosure_reports
      = [⟨"doc1".toList, "Lobbyist".toList, none, none⟩] := by
  exact ⟨by decide, by decide⟩

/-- C1 (amended): when the variant parser of a header-bearing document fails,
the per-document extraction is atomic EXCEPT for the DisclosureReport row:
the state is exactly the old state plus that row, one skip-log line holding
the document's filename and the error detail, and the skipped-error counter
bumped; no lobbyist, client, activity, expense, compensation, or
contribution record of the document is committed. -/
theorem claim_C1_atomicity_amended (pL : Soup → Str → Except Str LobBundle)
    (pC : Soup → Str → Except Str CliBundle) (st : BatchState) (fd : FileDoc)
    (raw e : Str) (hh : findSpanText fd.soup headerSpanId = some raw) :
    (containsSub "Lobbyist".toList (reportRowFor fd (strip raw)).report_type = true →
      pL fd.soup (deriveDisclosureId fd.filename) = .error e →
      processFileGen pL pC st fd =
        { st with
          disclosure_reports := st.disclosure_reports ++ [reportRowFor fd (strip raw)]
          skipped_other_error := st.skipped_other_error + 1
          skipped_files_log :=
            st.skipped_files_log ++
              [fd.filename ++ " (Reason: Parsing Error - ".toList ++ e ++ ")".toList] }) ∧
    (containsSub "Lobbyist".toList (reportRowFor fd (strip raw)).report_type = false →
      pC fd.soup (deriveDisclosureId fd.filename) = .error e →
      processFileGen pL pC st fd =
        { st with
          disclosure_reports := st.disclosure_reports ++ [reportRowFor fd (strip raw)]
          skipped_other_error := st.skipped_other_error + 1
          skipped_files_log :=
            st.skipped_files_log ++
              [fd.filename ++ " (Reason: Parsing Error - ".toList ++ e ++ ")".toList] }) := by
  constructor
  · intro hty hfail
    unfold processFileGen
    simp [hh, hty, hfail]
    intro hf
    simp at hty
    rw [hty] at hf
    simp at hf
  · intro hty hfail
    unfold processFileGen
    simp [hh, hty, hfail]
    intro hf
    simp at hty
    rw [hty] at hf
    simp at hf

def c1wsoup : Soup := [Node.span (some headerSpanId) "Lobbyist Disclosure".toList 0]

def c1wfd : FileDoc := ⟨"doc2.html".toList, c1wsoup⟩

theorem claim_C1_atomicity_amended_witness :
    processFileGen (fun _ _ => Except.error "boom2".toList)
        (fun s d => Except.ok (parse_client_report s d)) initialState c1wfd =
      { initialState with
        disclosure_reports :=
          initialState.disclosure_reports ++ [reportRowFor c1wfd (strip "Lobbyist Disclosure".toList)]
        skipped_other_error := initialState.skipped_other_error + 1
        skipped_files_log :=
          initialState.skipped_files_log ++
            [c1wfd.filename ++ " (Reason: Parsing Error - ".toList ++ "boom2".toList ++
              ")".toList] } := by
  have h := claim_C1_atomicity_amended (fun _ _ => Except.error "boom2".toList)
    (fun s d => Except.ok (parse_client_report s d)) initialState c1wfd
    "Lobbyist Disclosure".toList "boom2".toList (by decide)
  exact h.1 (by decide) rfl

/-! ## Claim C7 -/

def c7t1 : HTable :=
  ⟨"grdvOperatingExpensesA".toList,
    [⟨["hdr".toList]⟩, ⟨["".toList, "Alice".toList, "Ads".toList, "$5.00".toList]⟩]⟩

def c7t2 : HTable :=
  ⟨"grdvOperatingExpensesB".toList,
    [⟨["hdr".toList]⟩, ⟨["".toList, "Bob".toList, "Rent".toList, "$7.00".toList]⟩]⟩

def c7soup : Soup := [Node.table c7t1, Node.table c7t2]

/-- C7 fails as stated for the operating-expense kind: two tables of the
kind exist, neither holds the placeholder, the second contains a valid data
row, yet the extractor (which uses `soup.find`, first match only) returns
the first table's records alone — the second table's records are NOT
unioned in. -/
theorem claim_C7_counterexample :
    tablesWithIdContaining c7soup "grdvOperatingExpenses".toList = [c7t1, c7t2] ∧
    containsSub "No operating expenses were filed".toList (tableText c7t2) = false ∧
    opTableRecords "D7".toList c7t2 =
      [⟨"D7".toList, none, "Bob".toList, "Rent".toList, PyFloat.fin (DecVal.make 7 0)⟩] ∧
    parse_operating_expenses c7soup "D7".toList =
      [⟨"D7".toList, none, "Alice".toList, "Ads".toList, PyFloat.fin (DecVal.make 5 0)⟩] := by
  exact ⟨by decide, by decide, by decide, by decide⟩

/-- C7 (amended): absence and per-table "no data" placeholders yield zero
records (stray rows notwithstanding), and the union over multiple tables of
one kind — each independently checked for its own placeholder — holds for
the kinds collected with `find_all` (additional expenses here); the kinds
looked up with `soup.find` (operating expenses, contributions, Client-variant
MET) read only the FIRST matching table in document order. -/
theorem claim_C7_no_data_amended (s : Soup) (did : Str) :
    (tablesWithIdContaining s "grdvAdditionalExpenses".toList = [] →
      parse_additional_expenses s did = []) ∧
    (∀ t, containsSub "No additional expenses were filed".toList (tableText t) = true →
      addTableRecords did t = []) ∧
    (parse_additional_expenses s did =
      ((tablesWithIdContaining s "grdvAdditionalExpenses".toList).map
        (addTableRecords did)).flatten) ∧
    (firstTableWithIdContaining s "grdvOperatingExpenses".toList = none →
      parse_operating_expenses s did = []) ∧
    (∀ t, firstTableWithIdContaining s "grdvOperatingExpenses".toList = some t →
      containsSub "No operating expenses were filed".toList (tableText t) = true →
      parse_operating_expenses s did = []) ∧
    (∀ lobName, parse_met_expenses none did lobName = []) ∧
    (∀ t lobName,
      containsSub "No meals, travel, or entertainment expenses".toList (tableText t) = true →
      parse_met_expenses (some t) did lobName = []) := by
  refine ⟨?_, ?_, ?_, ?_, ?_, ?_, ?_⟩
  · intro h
    unfold parse_additional_expenses
    rw [h]
    rfl
  · intro t h
    unfold addTableRecords
    rw [h]
    rfl
  · unfold parse_additional_expenses
    rw [foldl_append_eq_join]
    rfl
  · intro h
    unfold parse_operating_expenses
    rw [h]
  · intro t h1 h2
    unfold parse_operating_expenses
    simp only [h1]
    unfold opTableRecords
    simp [h2]
    intro hf
    simp at h2
    rw [h2] at hf
    simp at hf
  · intro lobName
    rfl
  · intro t lobName h
    unfold parse_met_expenses
    simp [h]
    intro hf
    simp at h
    rw [h] at hf
    simp at hf

def c7wtable : HTable :=
  ⟨"grdvAdditionalExpensesX".toList,
    [ ⟨["hdr".toList]⟩
    , ⟨["No additional expenses were filed".toList]⟩
    , ⟨["".toList, "L".toList, "R".toList, "T".toList, "Desc".toList, "$3.00".toList]⟩ ]⟩

theorem claim_C7_no_data_amended_witness :
    containsSub "No additional expenses were filed".toList (tableText c7wtable) = true ∧
    addTableRecords "D8".toList c7wtable = [] := by
  refine ⟨by decide, ?_⟩
  exact (claim_C7_no_data_amended [] "D8".toList).2.1 c7wtable (by decide)

/-! ## Claim C9 -/

lemma dedupByKey_not_seen {α : Type} (key : α → Str) (seen : List Str) (l : List α) (r : α)
    (h : r ∈ dedupByKey key seen l) : key r ∉ seen := by
  induction l generalizing seen with
  | nil => simp [dedupByKey] at h
  | cons a t ih =>
    unfold dedupByKey at h
    by_cases ha : key a ∈ seen
    · rw [if_pos ha] at h
      exact ih seen h
    · rw [if_neg ha] at h
      rcases List.mem_cons.mp h with heq | hmem
      · subst heq
        exact ha
      · have hsub := ih (key a :: seen) hmem
        intro hc
        exact hsub (List.mem_cons_of_mem _ hc)

lemma dedupByKey_find {α : Type} (key : α → Str) (seen : List Str) (l : List α) (r : α)
    (h : r ∈ dedupByKey key seen l) :
    l.find? (fun x => key x == key r) = some r := by
  induction l generalizing seen with
  | nil => simp [dedupByKey] at h
  | cons a t ih =>
    unfold dedupByKey at h
    by_cases ha : key a ∈ seen
    · rw [if_pos ha] at h
      have hr := dedupByKey_not_seen key seen t r h
      have hne : (key a == key r) = false := by
        rw [beq_eq_false_iff_ne]
        intro hc
        rw [hc] at ha
        exact hr ha
      rw [List.find?_cons, hne]
      exact ih seen h
    · rw [if_neg ha] at h
      rcases List.mem_cons.mp h with heq | hmem
      · subst heq
        rw [List.find?_cons]
        simp
      · have hnotin := dedupByKey_not_seen key (key a :: seen) t r hmem
        have hne : (key a == key r) = false := by
          rw [beq_eq_false_iff_ne]
          intro hc
          exact hnotin (by rw [← hc]; exact List.mem_cons_self _ _)
        rw [List.find?_cons, hne]
        exact ih _ hmem

lemma dedupByKey_pairwise {α : Type} (key : α → Str) (seen : List Str) (l : List α) :
    (dedupByKey key seen l).Pairwise (fun a b => key a ≠ key b) := by
  induction l generalizing seen with
  | nil => exact List.Pairwise.nil
  | cons a t ih =>
    unfold dedupByKey
    by_cases ha : key a ∈ seen
    · rw [if_pos ha]
      exact ih seen
    · rw [if_neg ha]
      refine List.Pairwise.cons ?_ (ih _)
      intro b hb
      have hb2 := dedupByKey_not_seen key (key a :: seen) t b hb
      intro hc
      exact hb2 (by rw [← hc]; exact List.mem_cons_self _ _)

lemma dedupByKey_cover {α : Type} (key : α → Str) (seen : List Str) (l : List α) (x : α)
    (hx : x ∈ l) :
    key x ∈ seen ∨ ∃ r ∈ dedupByKey key seen l, key r = key x := by
  induction l generalizing seen with
  | nil => simp at hx
  | cons a t ih =>
    unfold dedupByKey
    rcases List.mem_cons.mp hx with heq | hmem
    · subst heq
      by_cases ha : key x ∈ seen
      · exact Or.inl ha
      · right
        rw [if_neg ha]
        exact ⟨x, List.mem_cons_self _ _, rfl⟩
    · by_cases ha : key a ∈ seen
      · rw [if_pos ha]
        exact ih seen hmem
      · rw [if_neg ha]
        rcases ih (key a :: seen) hmem with hin | ⟨r, hr, hkr⟩
        · rcases List.mem_cons.mp hin with heq2 | hin2
          · right
            exact ⟨a, List.mem_cons_self _ _, heq2.symm⟩
          · exact Or.inl hin2
        · right
          exact ⟨r, List.mem_cons_of_mem _ hr, hkr⟩

/-- C9: the aggregated LobbyistRecord and ClientRecord collections hold at
most one record per `disclosure_id`; when duplicates share an identifier, the
kept record is exactly the first-seen one in document-processing order
(`find?` over the accumulated list), and every accumulated identifier is
still represented. -/
theorem claim_C9_dedup_first_seen (files : List FileDoc) :
    ((finalLobbyists files).Pairwise (fun a b => a.disclosure_id ≠ b.disclosure_id) ∧
      (∀ r ∈ finalLobbyists files,
        (runBatch files).lobbyists.find? (fun x => x.disclosure_id == r.disclosure_id) =
          some r) ∧
      (∀ x ∈ (runBatch files).lobbyists,
        ∃ r ∈ finalLobbyists files, r.disclosure_id = x.disclosure_id)) ∧
    ((finalClients files).Pairwise (fun a b => a.disclosure_id ≠ b.disclosure_id) ∧
      (∀ r ∈ finalClients files,
        (runBatch files).clients.find? (fun x => x.disclosure_id == r.disclosure_id) =
          some r) ∧
      (∀ x ∈ (runBatch files).clients,
        ∃ r ∈ finalClients files, r.disclosure_id = x.disclosure_id)) := by
  refine ⟨⟨?_, ?_, ?_⟩, ⟨?_, ?_, ?_⟩⟩
  · exact dedupByKey_pairwise _ _ _
  · intro r hr
    exact dedupByKey_find _ _ _ r hr
  · intro x hx
    rcases dedupByKey_cover LobbyistInfo.disclosure_id [] _ x hx with hin | hfound
    · simp at hin
    · exact hfound
  · exact dedupByKey_pairwise _ _ _
  · intro r hr
    exact dedupByKey_find _ _ _ r hr
  · intro x hx
    rcases dedupByKey_cover ClientInfo.disclosure_id [] _ x hx with hin | hfound
    · simp at hin
    · exact hfound

def c9soupA : Soup :=
  [ Node.span (some headerSpanId) "Lobbyist Disclosure".toList 0
  , Node.span (some lblLobbyistFirstNameId) "Ann".toList 0
  , Node.span (some lblLobbyistLastNameId) "Lee".toList 0 ]

def c9soupB : Soup :=
  [ Node.span (some headerSpanId) "Lobbyist Disclosure".toList 0
  , Node.span (some lblLobbyistFirstNameId) "Bob".toList 0
  , Node.span (some lblLobbyistLastNameId) "Ray".toList 0 ]

def c9fdA : FileDoc := ⟨"sysvalue=AAA.html".toList, c9soupA⟩

def c9fdB : FileDoc := ⟨"sysvalue=AAA.html".toList, c9soupB⟩

def c9recA : LobbyistInfo :=
  ⟨"AAA".toList, "Ann".toList, "Lee".toList, [], false⟩

theorem claim_C9_dedup_first_seen_witness :
    (runBatch [c9fdA, c9fdB]).lobbyists.find?
        (fun x => x.disclosure_id == c9recA.disclosure_id) = some c9recA := by
  exact (claim_C9_dedup_first_seen [c9fdA, c9fdB]).1.2.1 c9recA (by decide)

/-! ## Claim C4 -/

lemma contains_false_of_not_mem (c : Char) (l : Str) (h : c ∉ l) : l.contains c = false := by
  simpa using h

lemma lastValidIdx_unique (xs : Str) (a : Nat)
    (hpre : htmlPat.isPrefixOf (xs.drop a) = true)
    (hnl : (xs.take a).contains '\n' = false)
    (ha : 1 ≤ a)
    (huniq : ∀ j, htmlPat.isPrefixOf (xs.drop j) = true → j = a) :
    ∀ n, a ≤ n → lastValidIdx xs n = some a := by
  intro n
  induction n with
  | zero =>
    intro hle
    exact absurd hle (by omega)
  | succ n ih =>
    intro hle
    unfold lastValidIdx
    rcases Nat.eq_or_lt_of_le hle with heq | hlt
    · subst heq
      rw [if_pos]
      rw [hpre, hnl]
      simp
    · have hle2 : a ≤ n := by omega
      cases hb : htmlPat.isPrefixOf (xs.drop (n + 1)) with
      | true => exact absurd (huniq (n + 1) hb) (by omega)
      | false =>
        simp only [Bool.false_and, Bool.false_eq_true, if_false]
        exact ih hle2

lemma svSearch_skip (p tail : Str)
    (h : ∀ i, i < p.length → svPat.isPrefixOf ((p ++ tail).drop i) = false) :
    svSearch (p ++ tail) = svSearch tail := by
  induction p with
  | nil => rfl
  | cons c p2 ih =>
    have h0 : svPat.isPrefixOf (c :: (p2 ++ tail)) = false := by
      have hx := h 0 (by simp)
      simpa using hx
    have hrest : ∀ i, i < p2.length → svPat.isPrefixOf ((p2 ++ tail).drop i) = false := by
      intro i hi
      have hx := h (i + 1) (by simp; omega)
      simpa using hx
    rw [List.cons_append]
    conv_lhs => unfold svSearch
    rw [h0]
    simp only [Bool.false_eq_true, if_false]
    exact ih hrest

lemma svSearch_none (fn : Str) (h : ∀ i, svPat.isPrefixOf (fn.drop i) = false) :
    svSearch fn = none := by
  induction fn with
  | nil => rfl
  | cons c rest ih =>
    have h0 : svPat.isPrefixOf (c :: rest) = false := by simpa using h 0
    unfold svSearch
    rw [h0]
    simp only [Bool.false_eq_true, if_false]
    apply ih
    intro i
    have hx := h (i + 1)
    simpa using hx

lemma svSearch_decomp (p v : Str) (hv : v ≠ []) (hnl : '\n' ∈ v → False)
    (hp : ∀ i, i < p.length →
      svPat.isPrefixOf ((p ++ (svPat ++ (v ++ htmlPat))).drop i) = false)
    (huniq : ∀ j, htmlPat.isPrefixOf ((v ++ htmlPat).drop j) = true → j = v.length) :
    svSearch (p ++ (svPat ++ (v ++ htmlPat))) = some v := by
  rw [svSearch_skip p _ hp]
  have hcons : svPat ++ (v ++ htmlPat) = 's' :: ("ysvalue=".toList ++ (v ++ htmlPat)) := rfl
  rw [hcons]
  unfold svSearch
  have hpre0 : svPat.isPrefixOf ('s' :: ("ysvalue=".toList ++ (v ++ htmlPat))) = true := by
    rw [← hcons, List.isPrefixOf_iff_prefix]
    exact List.prefix_append svPat (v ++ htmlPat)
  rw [hpre0]
  simp only [if_true]
  have hdrop : ('s' :: ("ysvalue=".toList ++ (v ++ htmlPat))).drop 9 = v ++ htmlPat := by
    rw [← hcons]
    rw [show (9 : Nat) = svPat.length from rfl]
    exact List.drop_left svPat (v ++ htmlPat)
  rw [hdrop]
  have hlast : lastValidIdx (v ++ htmlPat) (v ++ htmlPat).length = some v.length := by
    apply lastValidIdx_unique
    · rw [show (v ++ htmlPat).drop v.length = htmlPat from List.drop_left v htmlPat]
      rw [List.isPrefixOf_iff_prefix]
    · rw [List.take_left v htmlPat]
      exact contains_false_of_not_mem '\n' v hnl
    · have := List.length_pos.mpr hv
      omega
    · exact huniq
    · simp
  rw [hlast]
  show some ((v ++ htmlPat).take v.length) = some v
  rw [List.take_left v htmlPat]

lemma metRowRecord_id (did : Str) (lobName : Option Str) (r : HRow) (rec : MetExpense)
    (h : metRowRecord did lobName r = some rec) : rec.disclosure_id = did := by
  unfold metRowRecord at h
  split at h
  · cases h
  · simp only [Option.some.injEq] at h
    subst h
    rfl

lemma opRowRecord_id (did : Str) (r : HRow) (rec : OperatingExpense)
    (h : opRowRecord did r = some rec) : rec.disclosure_id = did := by
  unfold opRowRecord at h
  split at h
  · cases h
  · simp only [Option.some.injEq] at h
    subst h
    rfl

lemma addRowRecord_id (did : Str) (r : HRow) (rec : AdditionalExpense)
    (h : addRowRecord did r = some rec) : rec.disclosure_id = did := by
  unfold addRowRecord at h
  split at h
  · cases h
  · simp only [Option.some.injEq] at h
    subst h
    rfl

lemma contribRowRecord_id (did : Str) (r : HRow) (rec : Contribution)
    (h : contribRowRecord did r = some rec) : rec.disclosure_id = did := by
  unfold contribRowRecord at h
  split at h
  · cases h
  · simp only [Option.some.injEq] at h
    subst h
    rfl

lemma compRowRecord_id (did : Str) (r : HRow) (rec : Compensation)
    (h : compRowRecord did r = some rec) : rec.disclosure_id = did := by
  unfold compRowRecord at h
  split at h
  · cases h
  · simp only [Option.some.injEq] at h
    subst h
    rfl

lemma activityRowRecord_id (did lob cli : Str) (r : HRow) (rec : Activity)
    (h : activityRowRecord did lob cli r = some rec) : rec.disclosure_id = did := by
  unfold activityRowRecord at h
  split at h
  · cases h
  · simp only [Option.some.injEq] at h
    subst h
    rfl

lemma parse_met_expenses_ids (tbl : Option HTable) (did : Str) (lobName : Option Str) :
    ∀ m ∈ parse_met_expenses tbl did lobName, m.disclosure_id = did := by
  intro m hm
  unfold parse_met_expenses at hm
  rcases tbl with _ | t
  · exact (List.not_mem_nil m hm).elim
  · have hm2 : m ∈
        (if containsSub "No meals, travel, or entertainment expenses".toList (tableText t) = true
          then ([] : List MetExpense)
          else (t.rows.drop 1).filterMap (metRowRecord did lobName)) := hm
    by_cases hph :
        containsSub "No meals, travel, or entertainment expenses".toList (tableText t) = true
    · rw [if_pos hph] at hm2
      exact (List.not_mem_nil m hm2).elim
    · rw [if_neg hph] at hm2
      obtain ⟨r, hr, hrec⟩ := List.mem_filterMap.mp hm2
      exact metRowRecord_id did lobName r m hrec

lemma parse_operating_expenses_ids (s : Soup) (did : Str) :
    ∀ o ∈ parse_operating_expenses s did, o.disclosure_id = did := by
  intro o ho
  unfold parse_operating_expenses at ho
  rcases ht : firstTableWithIdContaining s "grdvOperatingExpenses".toList with _ | t
  · simp only [ht] at ho
    simp at ho
  · simp only [ht] at ho
    unfold opTableRecords at ho
    split at ho
    · simp at ho
    · simp only [List.mem_filterMap] at ho
      obtain ⟨r, hr, hrec⟩ := ho
      exact opRowRecord_id did r o hrec

lemma parse_additional_expenses_ids (s : Soup) (did : Str) :
    ∀ x ∈ parse_additional_expenses s did, x.disclosure_id = did := by
  intro x hx
  unfold parse_additional_expenses at hx
  obtain ⟨t, ht, hxt⟩ := mem_foldl_append _ _ _ hx
  unfold addTableRecords at hxt
  split at hxt
  · simp at hxt
  · simp only [List.mem_filterMap] at hxt
    obtain ⟨r, hr, hrec⟩ := hxt
    exact addRowRecord_id did r x hrec

lemma parse_contributions_ids (s : Soup) (did : Str) :
    ∀ c ∈ parse_contributions s did, c.disclosure_id = did := by
  intro c hc
  unfold parse_contributions at hc
  rcases ht : firstTableWithIdContaining s "grdvCampaignContribution".toList with _ | t
  · simp only [ht] at hc
    simp at hc
  · simp only [ht] at hc
    split at hc
    · simp at hc
    · simp only [List.mem_filterMap] at hc
      obtain ⟨r, hr, hrec⟩ := hc
      exact contribRowRecord_id did r c hrec

/-- Every record of a Lobbyist-variant bundle carries the given id. -/
def lobBundleIds (b : LobBundle) (did : Str) : Prop :=
  b.info.disclosure_id = did ∧
  (∀ a ∈ b.activities, a.disclosure_id = did) ∧
  (∀ m ∈ b.met_expenses, m.disclosure_id = did) ∧
  (∀ o ∈ b.operating_expenses, o.disclosure_id = did) ∧
  (∀ x ∈ b.additional_expenses, x.disclosure_id = did) ∧
  (∀ c ∈ b.contributions, c.disclosure_id = did)

/-- Every record of a Client-variant bundle carries the given id. -/
def cliBundleIds (b : CliBundle) (did : Str) : Prop :=
  b.info.disclosure_id = did ∧
  (∀ c ∈ b.compensations, c.disclosure_id = did) ∧
  (∀ m ∈ b.met_expenses, m.disclosure_id = did) ∧
  (∀ o ∈ b.operating_expenses, o.disclosure_id = did) ∧
  (∀ x ∈ b.additional_expenses, x.disclosure_id = did)

lemma parse_lobbyist_report_ids (s : Soup) (did : Str) :
    lobBundleIds (parse_lobbyist_report s did) did := by
  refine ⟨rfl, ?_, ?_, ?_, ?_, ?_⟩
  · intro a ha
    have ha2 : a ∈ (tableIdxsWithIdContaining s "grdvActivitiesNew".toList).foldl
        (fun acc i => acc ++ tableActivitiesAt s did i) [] := ha
    obtain ⟨i, hi, hai⟩ := mem_foldl_append _ _ _ ha2
    unfold tableActivitiesAt at hai
    rcases ht : tableAt s i with _ | t
    · simp only [ht] at hai
      simp at hai
    · simp only [ht] at hai
      simp only [List.mem_filterMap] at hai
      obtain ⟨r, hr, hrec⟩ := hai
      exact activityRowRecord_id did _ _ r a hrec
  · intro m hm
    have hm2 : m ∈ (tableIdxsWithIdContaining s "grdvMETExpenses".toList).foldl
        (fun acc i => acc ++ parse_met_expenses (tableAt s i) did
          (some (metAmbientAt s i (safe_get_text s lblLobbyistFirstNameId)
            (safe_get_text s lblLobbyistLastNameId)))) [] := hm
    obtain ⟨i, hi, hmi⟩ := mem_foldl_append _ _ _ hm2
    exact parse_met_expenses_ids _ did _ m hmi
  · exact parse_operating_expenses_ids s did
  · exact parse_additional_expenses_ids s did
  · exact parse_contributions_ids s did

lemma parse_client_report_ids (s : Soup) (did : Str) :
    cliBundleIds (parse_client_report s did) did := by
  refine ⟨rfl, ?_, ?_, ?_, ?_⟩
  · intro c hc
    have hc2 : c ∈
        (match firstTableWithIdExact s salaryPaidTableId with
          | none => ([] : List Compensation)
          | some t => (t.rows.drop 1).filterMap (compRowRecord did)) := hc
    rcases ht : firstTableWithIdExact s salaryPaidTableId with _ | t
    · simp only [ht] at hc2
      simp at hc2
    · simp only [ht] at hc2
      simp only [List.mem_filterMap] at hc2
      obtain ⟨r, hr, hrec⟩ := hc2
      exact compRowRecord_id did r c hrec
  · intro m hm
    exact parse_met_expenses_ids _ did none m hm
  · exact parse_operating_expenses_ids s did
  · exact parse_additional_expenses_ids s did

/-- C4: the derived identifier is the `sysvalue=` query-parameter value of
the source locator with `%2f` decoded to `/` (leftmost marker, greedy to the
last `.html`, per the regex), or the bare filename without extension when no
such parameter occurs; and every record either report parser emits — and the
DisclosureReport row the orchestrator appends — carries that identifier as
its `disclosure_id`. -/
theorem claim_C4_disclosure_id :
    (∀ p v : Str, v ≠ [] → ('\n' ∈ v → False) →
      (∀ i, i < p.length →
        svPat.isPrefixOf ((p ++ (svPat ++ (v ++ htmlPat))).drop i) = false) →
      (∀ j, j ≤ (v ++ htmlPat).length →
        htmlPat.isPrefixOf ((v ++ htmlPat).drop j) = true → j = v.length) →
      deriveDisclosureId (p ++ (svPat ++ (v ++ htmlPat))) = decode2f v) ∧
    (∀ fn : Str, (∀ i, i < fn.length → svPat.isPrefixOf (fn.drop i) = false) →
      deriveDisclosureId fn = splitextBase fn) ∧
    (∀ s did, lobBundleIds (parse_lobbyist_report s did) did) ∧
    (∀ s did, cliBundleIds (parse_client_report s did) did) ∧
    (∀ st fd raw, findSpanText fd.soup headerSpanId = some raw →
      (processFile st fd).disclosure_reports =
        st.disclosure_reports ++ [reportRowFor fd (strip raw)] ∧
      (reportRowFor fd (strip raw)).disclosure_id = deriveDisclosureId fd.filename) := by
  refine ⟨?_, ?_, parse_lobbyist_report_ids, parse_client_report_ids, ?_⟩
  · intro p v hv hnl hp hbound
    have huniq : ∀ j, htmlPat.isPrefixOf ((v ++ htmlPat).drop j) = true → j = v.length := by
      intro j hj
      rcases Nat.lt_or_ge ((v ++ htmlPat).length) j with hgt | hge
      · rw [List.drop_eq_nil_of_le (by omega)] at hj
        cases hj
      · exact hbound j hge hj
    unfold deriveDisclosureId
    rw [svSearch_decomp p v hv hnl hp huniq]
  · intro fn h
    have hall : ∀ i, svPat.isPrefixOf (fn.drop i) = false := by
      intro i
      rcases Nat.lt_or_ge i fn.length with hlt | hge
      · exact h i hlt
      · rw [List.drop_eq_nil_of_le hge]
        decide
    unfold deriveDisclosureId
    rw [svSearch_none fn hall]
  · intro st fd raw hh
    refine ⟨?_, rfl⟩
    unfold processFile processFileGen
    simp only [hh]
    split
    · rfl
    · rfl

theorem claim_C4_disclosure_id_witness :
    deriveDisclosureId
        ("CompleteDisclosure.aspx?".toList ++ (svPat ++ ("257%2f2024".toList ++ htmlPat))) =
      "257/2024".toList := by
  have h := claim_C4_disclosure_id.1 "CompleteDisclosure.aspx?".toList "257%2f2024".toList
    (by decide) (by decide) (by decide) (by decide)
  rw [h]
  decide

end LobbyExtract
